import Mathlib

/-!
Shallow embedding of the memory-gated execution handler
(`src/memory_handler.py`, `src/adapters/__init__.py`, `src/ports/__init__.py`).

Python exceptions are modelled by `Except PyErr`; every interaction with an
injected port (monitor, policy, estimator, recorder) is recorded, in program
order, in a trace of `Event`s, so that claims about which collaborator was
consulted and what was logged become statements about the trace.
-/

namespace MemHandler

/-- Python `int()` applied to a real-valued expression: truncation toward zero
(modelled on exact rationals). -/
def pyInt (x : ℚ) : ℤ := if 0 ≤ x then ⌊x⌋ else ⌈x⌉

/-- `MemoryInfo` dataclass from `src/ports/__init__.py`.  `percent` is a float
in Python, modelled as an exact rational; `safe_available` may come from the
policy's `int()` conversion, hence `ℤ`. -/
structure MemoryInfo where
  total : ℕ
  available : ℕ
  used : ℕ
  percent : ℚ
  safe_available : ℤ
  deriving Repr, DecidableEq

/-- `SafetyMarginMemoryPolicyAdapter` from `src/adapters/__init__.py`. -/
structure SafetyMarginMemoryPolicyAdapter where
  safety_margin : ℚ
  deriving Repr, DecidableEq

/-- `get_safe_available_memory`: `int(total_available * (1 - self.safety_margin))`. -/
def SafetyMarginMemoryPolicyAdapter.get_safe_available_memory
    (pol : SafetyMarginMemoryPolicyAdapter) (total_available : ℕ) : ℤ :=
  pyInt ((total_available : ℚ) * (1 - pol.safety_margin))

/-- `should_execute`: `estimated_usage <= self.get_safe_available_memory(available_memory)`. -/
def SafetyMarginMemoryPolicyAdapter.should_execute
    (pol : SafetyMarginMemoryPolicyAdapter) (estimated_usage available_memory : ℕ) : Bool :=
  decide ((estimated_usage : ℤ) ≤ pol.get_safe_available_memory available_memory)

/-- A Python exception value, distinguished by exception type, as `except`
clauses distinguish them.  `memoryError` is the built-in `MemoryError`. -/
inductive PyErr where
  | memoryError (msg : String)
  | otherError (msg : String)
  deriving Repr, DecidableEq

/-- Whether an exception is of type `MemoryError`. -/
def PyErr.isMemoryError : PyErr → Bool
  | .memoryError _ => true
  | .otherError _ => false

/-- One observable interaction with an injected port, in program order. -/
inductive Event where
  | estimateCall (args : List ℤ) (result : ℕ)
  | monitorAvailableCall (result : ℕ)
  | policySafeAvailableCall (available : ℕ) (result : ℤ)
  | policyShouldExecuteCall (estimated available : ℕ) (result : Bool)
  | logMemoryCheck (estimated available : ℕ) (safe : ℤ)
  | logExecutionDecision (func_name : String) (admitted : Bool) (reason : String)
  | logMemoryError (estimated available : ℕ)
  | funcCall (args : List ℤ)
  deriving Repr, DecidableEq

/-- Interactions with the `MemoryPolicyPort` (`should_execute` or
`get_safe_available_memory`). -/
def Event.isPolicyCall : Event → Bool
  | .policySafeAvailableCall _ _ => true
  | .policyShouldExecuteCall _ _ _ => true
  | _ => false

/-- Interactions with the `MemoryEstimatorPort` (`estimate_memory_usage`). -/
def Event.isEstimateCall : Event → Bool
  | .estimateCall _ _ => true
  | _ => false

/-- Interactions with the recorder's `log_execution_decision`. -/
def Event.isDecisionLog : Event → Bool
  | .logExecutionDecision _ _ _ => true
  | _ => false

/-- The recorder's decision-count: how many `log_execution_decision` calls a
trace contains. -/
def decisionCount (tr : List Event) : ℕ := (tr.filter Event.isDecisionLog).length

/-- The injected collaborators of a `MemoryConstrainedExecutionHandler`,
together with the wrapped callable.  The monitor is a read-only oracle, so its
readings are fixed values; the policy is an arbitrary pair of pure functions;
the callable may raise (`Except.error`). -/
structure Ports where
  func : List ℤ → Except PyErr ℤ
  func_name : String
  monitor_available : ℕ
  monitor_info : MemoryInfo
  policy_should_execute : ℕ → ℕ → Bool
  policy_get_safe_available_memory : ℕ → ℤ

/-- `_check_memory_availability` from `src/memory_handler.py`: reads the
monitor, asks the policy for the safe figure, logs the memory check, then asks
the policy for the decision (on the raw available figure). -/
def check_memory_availability (p : Ports) (estimated_usage : ℕ) : Bool × List Event :=
  let available_memory := p.monitor_available
  let safe_available := p.policy_get_safe_available_memory available_memory
  let d := p.policy_should_execute estimated_usage available_memory
  (d, [Event.monitorAvailableCall available_memory,
       Event.policySafeAvailableCall available_memory safe_available,
       Event.logMemoryCheck estimated_usage available_memory safe_available,
       Event.policyShouldExecuteCall estimated_usage available_memory d])

/-- The message of the `MemoryError` raised on refusal:
`f"Insufficient memory: estimated {estimated_usage // (1024**2)}MB exceeds available memory"`. -/
def insufficientMsg (estimated_usage : ℕ) : String :=
  "Insufficient memory: estimated " ++ toString (estimated_usage / (1024 * 1024)) ++
    "MB exceeds available memory"

/-- `execute_with_memory_check` from `src/memory_handler.py`.  Returns the
call's outcome together with the trace of port interactions. -/
def execute_with_memory_check (p : Ports) (memory_estimator : Option (List ℤ → ℕ))
    (args : List ℤ) : Except PyErr ℤ × List Event :=
  match memory_estimator with
  | some est =>
      let estimated_usage := est args
      let c := check_memory_availability p estimated_usage
      if c.1 then
        (p.func args,
         Event.estimateCall args estimated_usage :: c.2 ++
           [Event.logExecutionDecision p.func_name true "", Event.funcCall args])
      else
        (Except.error (PyErr.memoryError (insufficientMsg estimated_usage)),
         Event.estimateCall args estimated_usage :: c.2 ++
           [Event.monitorAvailableCall p.monitor_available,
            Event.logMemoryError estimated_usage p.monitor_available])
  | none =>
      (p.func args, [Event.logExecutionDecision p.func_name true "", Event.funcCall args])

/-- A batch entry: Python distinguishes tuple entries (unpacked with `*args`)
from any other value (passed as a single positional argument). -/
inductive BatchEntry where
  | tup (xs : List ℤ)
  | val (x : ℤ)
  deriving Repr, DecidableEq

/-- The positional arguments the batch loop hands to
`execute_with_memory_check` for an entry: a tuple is unpacked, anything else
is passed as one argument. -/
def entryArgs : BatchEntry → List ℤ
  | .tup xs => xs
  | .val x => [x]

/-- One iteration of the batch `for` loop: combine the entry's gated-call
outcome with the outcome of the remaining iterations.  `except MemoryError`
catches exactly the `memoryError` exception type, appends the skip log and a
`none` slot, and bumps the skipped count; any other exception aborts at once
(the remaining iterations contribute nothing). -/
def batchStep (func_name : String) (r : Except PyErr ℤ × List Event)
    (restRun : Except PyErr (List (Option ℤ) × ℕ) × List Event) :
    Except PyErr (List (Option ℤ) × ℕ) × List Event :=
  match r.1 with
  | Except.ok v =>
      (match restRun.1 with
       | Except.ok (slots, k) => Except.ok (some v :: slots, k)
       | Except.error e => Except.error e,
       r.2 ++ restRun.2)
  | Except.error (PyErr.memoryError m) =>
      (match restRun.1 with
       | Except.ok (slots, k) => Except.ok (none :: slots, k + 1)
       | Except.error e => Except.error e,
       r.2 ++ [Event.logExecutionDecision func_name false m] ++ restRun.2)
  | Except.error e => (Except.error e, r.2)

/-- The batch `for` loop of `execute_batch_with_memory_check`: per-entry
outcome slots plus the `skipped_count`. -/
def execute_batch_loop (p : Ports) (memory_estimator : Option (List ℤ → ℕ)) :
    List BatchEntry → Except PyErr (List (Option ℤ) × ℕ) × List Event
  | [] => (Except.ok ([], 0), [])
  | entry :: rest =>
      batchStep p.func_name (execute_with_memory_check p memory_estimator (entryArgs entry))
        (execute_batch_loop p memory_estimator rest)

/-- `execute_batch_with_memory_check` from `src/memory_handler.py`: run the
loop, then, if anything was skipped, log the aggregate decision. -/
def execute_batch_with_memory_check (p : Ports) (args_list : List BatchEntry)
    (memory_estimator : Option (List ℤ → ℕ)) :
    Except PyErr (List (Option ℤ)) × List Event :=
  let run := execute_batch_loop p memory_estimator args_list
  match run.1 with
  | Except.ok (results, skipped_count) =>
      if skipped_count > 0 then
        (Except.ok results,
         run.2 ++ [Event.logExecutionDecision ("batch_" ++ p.func_name) false
           ("Skipped " ++ toString skipped_count ++ " out of " ++
            toString args_list.length ++ " executions due to memory constraints")])
      else (Except.ok results, run.2)
  | Except.error e => (Except.error e, run.2)

/-- `get_memory_info` from `src/memory_handler.py`: the monitor's snapshot
with `safe_available` recomputed by the policy. -/
def get_memory_info (p : Ports) : MemoryInfo :=
  let mi := p.monitor_info
  let safe_available := p.policy_get_safe_available_memory mi.available
  { total := mi.total, available := mi.available, used := mi.used,
    percent := mi.percent, safe_available := safe_available }

/-- Whether `needle` occurs as a contiguous run inside `hay` (substring test
on the character lists of the strings involved). -/
def listContains (needle : List Char) : List Char → Bool
  | [] => needle.isEmpty
  | c :: t => needle.isPrefixOf (c :: t) || listContains needle t

/-! Concrete fixtures, mirroring the shapes used in
`tests/test_memory_handler.py`: a configurable estimator, a threshold policy,
and callables that succeed or raise. -/

/-- Fixture estimator: reads its first argument as the byte estimate. -/
def egEst : List ℤ → ℕ := fun xs => xs.headI.toNat

/-- Fixture handler: the callable doubles its argument; the policy admits
estimates of at most 1 byte; the monitor reports 4 bytes available. -/
def egPorts : Ports where
  func := fun xs => Except.ok (xs.headI * 2)
  func_name := "test_function"
  monitor_available := 4
  monitor_info := { total := 8, available := 4, used := 4, percent := 50, safe_available := 4 }
  policy_should_execute := fun e _ => decide (e ≤ 1)
  policy_get_safe_available_memory := fun a => (a : ℤ)

/-- Fixture estimator returning a fixed 3 MiB estimate. -/
def c2Est : List ℤ → ℕ := fun _ => 3145728

/-- Fixture handler whose policy always refuses, with 1 MiB available. -/
def c2Ports : Ports where
  func := fun _ => Except.ok 0
  func_name := "test_function"
  monitor_available := 1048576
  monitor_info := { total := 2097152, available := 1048576, used := 1048576,
                    percent := 50, safe_available := 1048576 }
  policy_should_execute := fun _ _ => false
  policy_get_safe_available_memory := fun a => (a : ℤ)

/-- Fixture handler whose callable itself raises `MemoryError("boom")`. -/
def memBoomPorts : Ports where
  func := fun _ => Except.error (PyErr.memoryError "boom")
  func_name := "boom"
  monitor_available := 4
  monitor_info := { total := 8, available := 4, used := 4, percent := 50, safe_available := 4 }
  policy_should_execute := fun _ _ => true
  policy_get_safe_available_memory := fun a => (a : ℤ)

/-- Fixture handler whose callable raises a non-memory exception. -/
def otherBoomPorts : Ports where
  func := fun _ => Except.error (PyErr.otherError "boom")
  func_name := "boom"
  monitor_available := 4
  monitor_info := { total := 8, available := 4, used := 4, percent := 50, safe_available := 4 }
  policy_should_execute := fun _ _ => true
  policy_get_safe_available_memory := fun a => (a : ℤ)

/-! Helper lemmas about the batch loop. -/

/-- The value component of the batch call is the loop's value component with
the skipped count dropped (the aggregate log only touches the trace). -/
theorem execute_batch_fst (p : Ports) (est : Option (List ℤ → ℕ)) (l : List BatchEntry) :
    (execute_batch_with_memory_check p l est).1 =
      match (execute_batch_loop p est l).1 with
      | Except.ok (s, _) => Except.ok s
      | Except.error e => Except.error e := by
  unfold execute_batch_with_memory_check
  rcases h : (execute_batch_loop p est l).1 with e | ⟨s, k⟩
  · simp [h]
  · simp only [h]
    split <;> rfl

/-- The batch loop only inspects an entry through `entryArgs`. -/
theorem execute_batch_loop_congrEntry (p : Ports) (est : Option (List ℤ → ℕ))
    (a b : BatchEntry) (hab : entryArgs a = entryArgs b) (pre post : List BatchEntry) :
    execute_batch_loop p est (pre ++ a :: post) = execute_batch_loop p est (pre ++ b :: post) := by
  induction pre with
  | nil => simp [execute_batch_loop, hab]
  | cons hd tl ih => simp [execute_batch_loop, ih]

/-- Splitting a batch after a block that did not abort: the tail's loop runs
verbatim after the head block's, slots and skip counts concatenating. -/
theorem execute_batch_loop_append_ok (p : Ports) (est : Option (List ℤ → ℕ))
    (l2 : List BatchEntry) :
    ∀ (l1 : List BatchEntry) (s1 : List (Option ℤ)) (k1 : ℕ) (ev1 : List Event),
      execute_batch_loop p est l1 = (Except.ok (s1, k1), ev1) →
      execute_batch_loop p est (l1 ++ l2) =
        (match (execute_batch_loop p est l2).1 with
         | Except.ok (s2, k2) => Except.ok (s1 ++ s2, k1 + k2)
         | Except.error e => Except.error e,
         ev1 ++ (execute_batch_loop p est l2).2) := by
  intro l1
  induction l1 with
  | nil =>
      intro s1 k1 ev1 h
      simp only [execute_batch_loop, Prod.mk.injEq, Except.ok.injEq] at h
      obtain ⟨⟨hs, hk⟩, hev⟩ := h
      subst hs; subst hk; subst hev
      rcases h2 : execute_batch_loop p est l2 with ⟨r2, ev2⟩
      rcases r2 with e | ⟨s2, k2⟩ <;> simp [h2]
  | cons hd tl ih =>
      intro s1 k1 ev1 h
      rw [execute_batch_loop] at h
      rw [List.cons_append, execute_batch_loop]
      rcases hr : (execute_with_memory_check p est (entryArgs hd)).1 with e | v
      · rcases e with m | m
        · -- memory error on the head entry: skipped, loop continues
          rcases htl : execute_batch_loop p est tl with ⟨rT, evT⟩
          rcases rT with e2 | ⟨sT, kT⟩
          · rw [batchStep, hr, htl] at h
            simp at h
          · rw [batchStep, hr, htl] at h
            simp only [Prod.mk.injEq, Except.ok.injEq] at h
            obtain ⟨⟨hs, hk⟩, hev⟩ := h
            subst hs; subst hk; subst hev
            rw [batchStep, hr, ih sT kT evT htl]
            rcases h2 : execute_batch_loop p est l2 with ⟨r2, ev2⟩
            rcases r2 with e3 | ⟨s2, k2⟩
            · simp [h2]
            · simp [h2, List.append_assoc]
              omega
        · -- non-memory error: the whole loop aborted, contradicting `h`
          rw [batchStep, hr] at h
          simp at h
      · -- head entry succeeded
        rcases htl : execute_batch_loop p est tl with ⟨rT, evT⟩
        rcases rT with e2 | ⟨sT, kT⟩
        · rw [batchStep, hr, htl] at h
          simp at h
        · rw [batchStep, hr, htl] at h
          simp only [Prod.mk.injEq, Except.ok.injEq] at h
          obtain ⟨⟨hs, hk⟩, hev⟩ := h
          subst hs; subst hk; subst hev
          rw [batchStep, hr, ih sT kT evT htl]
          rcases h2 : execute_batch_loop p est l2 with ⟨r2, ev2⟩
          rcases r2 with e3 | ⟨s2, k2⟩
          · simp [h2]
          · simp [h2, List.append_assoc]

/-- A single gated call with an estimator produces exactly one
`estimate_memory_usage` interaction, on the call's own arguments, whatever
the decision. -/
theorem filter_estimate_single (p : Ports) (est : List ℤ → ℕ) (args : List ℤ) :
    ((execute_with_memory_check p (some est) args).2).filter Event.isEstimateCall =
      [Event.estimateCall args (est args)] := by
  cases h : p.policy_should_execute (est args) p.monitor_available <;>
    simp [execute_with_memory_check, check_memory_availability, h, Event.isEstimateCall]

/-- When the batch loop runs to completion, its slot list has one slot per
entry, in order: each slot is either `none` (skipped) or that entry's own
successful result. -/
theorem execute_batch_loop_ok_spec (p : Ports) (est : Option (List ℤ → ℕ)) :
    ∀ (entries : List BatchEntry) (slots : List (Option ℤ)) (k : ℕ),
      (execute_batch_loop p est entries).1 = Except.ok (slots, k) →
      slots.length = entries.length ∧
      ∀ i (hi : i < entries.length),
        slots.get? i = some none ∨
        ∃ v, slots.get? i = some (some v) ∧
          (execute_with_memory_check p est (entryArgs (entries.get ⟨i, hi⟩))).1 =
            Except.ok v := by
  intro entries
  induction entries with
  | nil =>
      intro slots k h
      simp only [execute_batch_loop, Except.ok.injEq, Prod.mk.injEq] at h
      obtain ⟨hs, hk⟩ := h
      subst hs
      exact ⟨rfl, fun i hi => absurd hi (by simp)⟩
  | cons entry rest ih =>
      intro slots k h
      rw [execute_batch_loop] at h
      rcases hr : (execute_with_memory_check p est (entryArgs entry)).1 with e | v
      · rcases e with m | m
        · rcases htl : (execute_batch_loop p est rest).1 with e2 | ⟨sT, kT⟩
          · rw [batchStep, hr] at h
            simp [htl] at h
          · rw [batchStep, hr] at h
            simp only [htl, Except.ok.injEq, Prod.mk.injEq] at h
            obtain ⟨hs, hk⟩ := h
            subst hs
            obtain ⟨hlen, hslot⟩ := ih sT kT htl
            refine ⟨by simp [hlen], ?_⟩
            intro i hi
            cases i with
            | zero => exact Or.inl rfl
            | succ j =>
                have hj : j < rest.length := by
                  simpa [Nat.succ_lt_succ_iff] using hi
                simpa using hslot j hj
        · rw [batchStep, hr] at h
          simp at h
      · rcases htl : (execute_batch_loop p est rest).1 with e2 | ⟨sT, kT⟩
        · rw [batchStep, hr] at h
          simp [htl] at h
        · rw [batchStep, hr] at h
          simp only [htl, Except.ok.injEq, Prod.mk.injEq] at h
          obtain ⟨hs, hk⟩ := h
          subst hs
          obtain ⟨hlen, hslot⟩ := ih sT kT htl
          refine ⟨by simp [hlen], ?_⟩
          intro i hi
          cases i with
          | zero => exact Or.inr ⟨v, rfl, hr⟩
          | succ j =>
              have hj : j < rest.length := by
                simpa [Nat.succ_lt_succ_iff] using hi
              simpa using hslot j hj

/-- When the batch loop runs to completion, its trace's
`estimate_memory_usage` interactions are exactly one per entry, in input
order, each on that entry's own arguments. -/
theorem execute_batch_loop_filter_estimate (p : Ports) (est : List ℤ → ℕ) :
    ∀ (entries : List BatchEntry) (slots : List (Option ℤ)) (k : ℕ),
      (execute_batch_loop p (some est) entries).1 = Except.ok (slots, k) →
      ((execute_batch_loop p (some est) entries).2).filter Event.isEstimateCall =
        entries.map (fun entry =>
          Event.estimateCall (entryArgs entry) (est (entryArgs entry))) := by
  intro entries
  induction entries with
  | nil => intro slots k _; simp [execute_batch_loop]
  | cons entry rest ih =>
      intro slots k h
      rw [execute_batch_loop] at h ⊢
      rcases hr : (execute_with_memory_check p (some est) (entryArgs entry)).1 with e | v
      · rcases e with m | m
        · rcases htl : (execute_batch_loop p (some est) rest).1 with e2 | ⟨sT, kT⟩
          · rw [batchStep, hr] at h
            simp [htl] at h
          · rw [batchStep, hr]
            simp only [List.filter_append, List.map_cons]
            rw [ih sT kT htl, filter_estimate_single]
            simp [Event.isEstimateCall]
        · rw [batchStep, hr] at h
          simp at h
      · rcases htl : (execute_batch_loop p (some est) rest).1 with e2 | ⟨sT, kT⟩
        · rw [batchStep, hr] at h
          simp [htl] at h
        · rw [batchStep, hr]
          simp only [List.filter_append, List.map_cons]
          rw [ih sT kT htl, filter_estimate_single]
          simp

/-- A list is a prefix of itself extended on the right. -/
theorem isPrefixOf_append_self (l t : List Char) : l.isPrefixOf (l ++ t) = true := by
  rw [ List.isPrefixOf_iff_prefix]
  exact List.prefix_append l t

/-- A contiguous block occurs in any list it was pasted into. -/
theorem listContains_append (l1 needle l2 : List Char) :
    listContains needle (l1 ++ needle ++ l2) = true := by
  induction l1 with
  | nil =>
      cases needle with
      | nil =>
          cases l2 with
          | nil => simp [listContains]
          | cons c t => simp [listContains, List.isPrefixOf]
      | cons n ns =>
          rw [List.nil_append, List.cons_append, listContains]
          have h := isPrefixOf_append_self (n :: ns) l2
          rw [List.cons_append] at h
          rw [h, Bool.true_or]
  | cons c l1 ih =>
      rw [List.append_assoc] at ih
      rw [List.append_assoc, List.cons_append, listContains, ih, Bool.or_true]

/-! Claim theorems. -/

/-- C3: for the safety-margin policy with margin in [0,1), `should_execute(e,a)`
is true exactly when `e <= floor(a*(1-margin))`; the `int()` conversion in
`get_safe_available_memory` is truncation, which on this non-negative quantity
coincides with the floor. -/
theorem safety_margin_gate_correct (pol : SafetyMarginMemoryPolicyAdapter)
    (h0 : 0 ≤ pol.safety_margin) (h1 : pol.safety_margin < 1) (e a : ℕ) :
    pol.get_safe_available_memory a = ⌊(a : ℚ) * (1 - pol.safety_margin)⌋ ∧
    (pol.should_execute e a = true ↔
      (e : ℤ) ≤ ⌊(a : ℚ) * (1 - pol.safety_margin)⌋) := by
  have hx : (0 : ℚ) ≤ (a : ℚ) * (1 - pol.safety_margin) :=
    mul_nonneg (Nat.cast_nonneg a) (by linarith)
  have hsafe : pol.get_safe_available_memory a = ⌊(a : ℚ) * (1 - pol.safety_margin)⌋ := by
    simp [SafetyMarginMemoryPolicyAdapter.get_safe_available_memory, pyInt, hx]
  refine ⟨hsafe, ?_⟩
  simp [SafetyMarginMemoryPolicyAdapter.should_execute, hsafe]

/-- Witness for C3 at margin 1/10, estimated 90, available 100. -/
theorem safety_margin_gate_correct_witness :
    (⟨1/10⟩ : SafetyMarginMemoryPolicyAdapter).get_safe_available_memory 100 =
      ⌊((100 : ℕ) : ℚ) * (1 - (⟨1/10⟩ : SafetyMarginMemoryPolicyAdapter).safety_margin)⌋ ∧
    ((⟨1/10⟩ : SafetyMarginMemoryPolicyAdapter).should_execute 90 100 = true ↔
      ((90 : ℕ) : ℤ) ≤
        ⌊((100 : ℕ) : ℚ) * (1 - (⟨1/10⟩ : SafetyMarginMemoryPolicyAdapter).safety_margin)⌋) :=
  safety_margin_gate_correct ⟨1/10⟩ (by norm_num) (by norm_num) 90 100

/-- C9: `get_memory_info` copies the monitor snapshot's total, available, used
and percent fields, and its `safe_available` field is the policy's
`get_safe_available_memory` applied to the snapshot's available figure, whatever
`safe_available` the monitor itself reported. -/
theorem get_memory_info_policy_overrides (p : Ports) :
    (get_memory_info p).total = p.monitor_info.total ∧
    (get_memory_info p).available = p.monitor_info.available ∧
    (get_memory_info p).used = p.monitor_info.used ∧
    (get_memory_info p).percent = p.monitor_info.percent ∧
    (get_memory_info p).safe_available =
      p.policy_get_safe_available_memory p.monitor_info.available :=
  ⟨rfl, rfl, rfl, rfl, rfl⟩

/-- C10: a tuple batch entry is unpacked into separate positional arguments
and a non-tuple entry is passed as a single argument, so the bare value `x`
and the one-tuple `(x,)` are indistinguishable anywhere in a batch. -/
theorem tuple_entry_unpacking (x : ℤ) (xs : List ℤ) (p : Ports)
    (est : Option (List ℤ → ℕ)) (pre post : List BatchEntry) :
    entryArgs (BatchEntry.tup xs) = xs ∧
    entryArgs (BatchEntry.val x) = [x] ∧
    execute_with_memory_check p est (entryArgs (BatchEntry.val x)) =
      execute_with_memory_check p est (entryArgs (BatchEntry.tup [x])) ∧
    execute_batch_with_memory_check p (pre ++ BatchEntry.val x :: post) est =
      execute_batch_with_memory_check p (pre ++ BatchEntry.tup [x] :: post) est := by
  refine ⟨rfl, rfl, rfl, ?_⟩
  have h := execute_batch_loop_congrEntry p est (BatchEntry.val x) (BatchEntry.tup [x])
    rfl pre post
  simp [execute_batch_with_memory_check, h]

/-- C5 (amended): with no estimator the gated call delegates unconditionally
and returns the callable's outcome whatever the monitor reports, never touches
the policy or the estimator — but it still records one execution decision
(admitted) with the recorder, so the recorder's decision-count grows by one. -/
theorem no_estimator_bypass (p : Ports) (args : List ℤ) :
    (execute_with_memory_check p none args).1 = p.func args ∧
    ((execute_with_memory_check p none args).2).filter Event.isPolicyCall = [] ∧
    ((execute_with_memory_check p none args).2).filter Event.isEstimateCall = [] ∧
    (execute_with_memory_check p none args).2 =
      [Event.logExecutionDecision p.func_name true "", Event.funcCall args] ∧
    decisionCount (execute_with_memory_check p none args).2 = 1 :=
  ⟨rfl, rfl, rfl, rfl, rfl⟩

/-- C5 counterexample: on a no-estimator call the recorder's decision-count
does not stay at its prior value — the call records one (admitted) decision. -/
theorem no_estimator_still_logs_decision :
    (execute_with_memory_check egPorts none [4]).1 = Except.ok 8 ∧
    decisionCount (execute_with_memory_check egPorts none [4]).2 = 1 ∧
    decisionCount (execute_with_memory_check egPorts none [4]).2 ≠ 0 :=
  ⟨rfl, rfl, by decide⟩

/-- C2 (amended): when the policy refuses, the gated call raises the
memory-constraint error and produces no result, and its message contains the
estimated figure floor-divided to whole MiB — but not the available figure,
which reaches only the recorder via `log_memory_error`; when the policy
admits, no such error is raised and the callable's outcome is returned. -/
theorem refusal_error_and_recorder (p : Ports) (est : List ℤ → ℕ) (args : List ℤ) :
    (p.policy_should_execute (est args) p.monitor_available = false →
      (execute_with_memory_check p (some est) args).1 =
        Except.error (PyErr.memoryError (insufficientMsg (est args))) ∧
      listContains (toString (est args / (1024 * 1024))).data
        (insufficientMsg (est args)).data = true ∧
      Event.logMemoryError (est args) p.monitor_available ∈
        (execute_with_memory_check p (some est) args).2) ∧
    (p.policy_should_execute (est args) p.monitor_available = true →
      (execute_with_memory_check p (some est) args).1 = p.func args) := by
  constructor
  · intro h
    refine ⟨?_, ?_, ?_⟩
    · simp [execute_with_memory_check, check_memory_availability, h]
    · have hd : (insufficientMsg (est args)).data =
          "Insufficient memory: estimated ".data ++
            (toString (est args / (1024 * 1024))).data ++
            "MB exceeds available memory".data := by
        simp [insufficientMsg]
      rw [hd]
      exact listContains_append _ _ _
    · simp [execute_with_memory_check, check_memory_availability, h]
  · intro h
    simp [execute_with_memory_check, check_memory_availability, h]

/-- Witness for C2 (amended) on the always-refusing fixture. -/
theorem refusal_error_and_recorder_witness :
    (execute_with_memory_check c2Ports (some c2Est) []).1 =
      Except.error (PyErr.memoryError (insufficientMsg (c2Est []))) ∧
    listContains (toString (c2Est [] / (1024 * 1024))).data
      (insufficientMsg (c2Est [])).data = true ∧
    Event.logMemoryError (c2Est []) c2Ports.monitor_available ∈
      (execute_with_memory_check c2Ports (some c2Est) []).2 :=
  (refusal_error_and_recorder c2Ports c2Est []).1 rfl

/-- C2 counterexample: a refusal whose message contains neither the available
byte figure (1048576, nor its MiB rendering) nor the estimated byte figure
(3145728) — the message renders only the estimate, in whole MiB. -/
theorem refusal_message_lacks_available_figure :
    (execute_with_memory_check c2Ports (some c2Est) []).1 =
      Except.error (PyErr.memoryError
        "Insufficient memory: estimated 3MB exceeds available memory") ∧
    listContains (toString (1048576 : ℕ)).data
      "Insufficient memory: estimated 3MB exceeds available memory".data = false ∧
    listContains (toString ((1048576 : ℕ) / (1024 * 1024))).data
      "Insufficient memory: estimated 3MB exceeds available memory".data = false ∧
    listContains (toString (3145728 : ℕ)).data
      "Insufficient memory: estimated 3MB exceeds available memory".data = false := by
  refine ⟨rfl, ?_, ?_, ?_⟩ <;> decide

/-- C4 (amended): with an estimator, the recorder's `log_execution_decision`
is called with admitted=true immediately before delegation when the policy
admits; on refusal the single gated call makes no `log_execution_decision`
call at all — the recorder instead receives `log_memory_error` before the
memory-constraint error is raised. -/
theorem decision_logging_per_branch (p : Ports) (est : List ℤ → ℕ) (args : List ℤ) :
    (p.policy_should_execute (est args) p.monitor_available = true →
      ∃ tr, (execute_with_memory_check p (some est) args).2 =
          tr ++ [Event.logExecutionDecision p.func_name true "", Event.funcCall args] ∧
        tr.filter Event.isDecisionLog = []) ∧
    (p.policy_should_execute (est args) p.monitor_available = false →
      ((execute_with_memory_check p (some est) args).2).filter Event.isDecisionLog = [] ∧
      Event.logMemoryError (est args) p.monitor_available ∈
        (execute_with_memory_check p (some est) args).2) := by
  constructor
  · intro h
    refine ⟨Event.estimateCall args (est args) ::
      (check_memory_availability p (est args)).2, ?_, ?_⟩
    · simp [execute_with_memory_check, check_memory_availability, h]
    · simp [check_memory_availability, Event.isDecisionLog, List.filter]
  · intro h
    constructor
    · simp [execute_with_memory_check, check_memory_availability, h,
        Event.isDecisionLog, List.filter]
    · simp [execute_with_memory_check, check_memory_availability, h]

/-- Witness for C4 (amended): the admitted branch on the threshold fixture and
the refused branch on the always-refusing fixture. -/
theorem decision_logging_per_branch_witness :
    (∃ tr, (execute_with_memory_check egPorts (some egEst) [1]).2 =
        tr ++ [Event.logExecutionDecision egPorts.func_name true "",
               Event.funcCall [1]] ∧
      tr.filter Event.isDecisionLog = []) ∧
    (((execute_with_memory_check c2Ports (some c2Est) []).2).filter
        Event.isDecisionLog = [] ∧
      Event.logMemoryError (c2Est []) c2Ports.monitor_available ∈
        (execute_with_memory_check c2Ports (some c2Est) []).2) :=
  ⟨(decision_logging_per_branch egPorts egEst [1]).1 rfl,
   (decision_logging_per_branch c2Ports c2Est []).2 rfl⟩

/-- C4 counterexample: a refused single gated call in which the recorder's
`log_execution_decision` is never invoked — in particular not with
admitted=false — while the memory-constraint error is raised. -/
theorem refused_call_logs_no_decision :
    ((execute_with_memory_check c2Ports (some c2Est) []).2).filter
      Event.isDecisionLog = [] ∧
    (execute_with_memory_check c2Ports (some c2Est) []).1 =
      Except.error (PyErr.memoryError (insufficientMsg 3145728)) :=
  ⟨rfl, rfl⟩

/-- C1 (amended): the batch catches by exception type, not provenance: an
entry on which the gated call fails with a non-`MemoryError` exception aborts
the batch at once, the failure propagating unchanged with no further entry
attempted; but any `MemoryError` — including one raised by the delegated
callable itself — is converted into the skipped slot and the batch continues. -/
theorem execute_batch_nonmemory_error_aborts (p : Ports) (est : Option (List ℤ → ℕ))
    (entry : BatchEntry) (rest : List BatchEntry) (err : PyErr)
    (h : (execute_with_memory_check p est (entryArgs entry)).1 = Except.error err) :
    (err.isMemoryError = false →
      execute_batch_with_memory_check p (entry :: rest) est =
        (Except.error err, (execute_with_memory_check p est (entryArgs entry)).2)) ∧
    (∀ m slots k, err = PyErr.memoryError m →
      (execute_batch_loop p est rest).1 = Except.ok (slots, k) →
      (execute_batch_loop p est (entry :: rest)).1 = Except.ok (none :: slots, k + 1) ∧
      (execute_batch_loop p est (entry :: rest)).2 =
        (execute_with_memory_check p est (entryArgs entry)).2 ++
          [Event.logExecutionDecision p.func_name false m] ++
          (execute_batch_loop p est rest).2) := by
  constructor
  · intro hf
    rcases err with m | m
    · simp [PyErr.isMemoryError] at hf
    · rw [execute_batch_with_memory_check]
      rw [execute_batch_loop, batchStep, h]
  · intro m slots k hm hrest
    subst hm
    rw [execute_batch_loop, batchStep, h]
    exact ⟨by simp [hrest], by simp⟩

/-- Witness for C1 (amended): a callable raising a non-memory exception on the
first of two entries aborts the batch, leaving only that entry's trace. -/
theorem execute_batch_nonmemory_error_aborts_witness :
    execute_batch_with_memory_check otherBoomPorts
        [BatchEntry.val 0, BatchEntry.val 1] none =
      (Except.error (PyErr.otherError "boom"),
       (execute_with_memory_check otherBoomPorts none
         (entryArgs (BatchEntry.val 0))).2) :=
  (execute_batch_nonmemory_error_aborts otherBoomPorts none (BatchEntry.val 0)
    [BatchEntry.val 1] (PyErr.otherError "boom") rfl).1 rfl

/-- C1 counterexample: the delegated callable itself raises
`MemoryError("boom")`; far from propagating unchanged, the batch converts it
into the skipped marker and reports success. -/
theorem execute_batch_callable_memory_error_skipped :
    memBoomPorts.func (entryArgs (BatchEntry.val 0)) =
      Except.error (PyErr.memoryError "boom") ∧
    (execute_batch_with_memory_check memBoomPorts [BatchEntry.val 0] none).1 =
      Except.ok [none] :=
  ⟨rfl, rfl⟩

/-- C6: whenever the batch call returns, it returns one slot per input entry,
in input order; each slot is either the skipped marker or that very entry's
successful result — no drop, no reordering. -/
theorem execute_batch_length_and_order (p : Ports) (est : Option (List ℤ → ℕ))
    (entries : List BatchEntry) (slots : List (Option ℤ))
    (h : (execute_batch_with_memory_check p entries est).1 = Except.ok slots) :
    slots.length = entries.length ∧
    ∀ i (hi : i < entries.length),
      slots.get? i = some none ∨
      ∃ v, slots.get? i = some (some v) ∧
        (execute_with_memory_check p est (entryArgs (entries.get ⟨i, hi⟩))).1 =
          Except.ok v := by
  have hf := execute_batch_fst p est entries
  rw [h] at hf
  rcases hl : (execute_batch_loop p est entries).1 with e | ⟨s, k⟩
  · rw [hl] at hf
    simp at hf
  · rw [hl] at hf
    simp only [Except.ok.injEq] at hf
    subst hf
    exact execute_batch_loop_ok_spec p est entries slots k hl

/-- Witness for C6 on a two-entry batch with one admitted and one refused
entry. -/
theorem execute_batch_length_and_order_witness :
    ([some 2, none] : List (Option ℤ)).length =
      ([BatchEntry.val 1, BatchEntry.val 2] : List BatchEntry).length ∧
    ∀ i (hi : i < ([BatchEntry.val 1, BatchEntry.val 2] : List BatchEntry).length),
      ([some 2, none] : List (Option ℤ)).get? i = some none ∨
      ∃ v, ([some 2, none] : List (Option ℤ)).get? i = some (some v) ∧
        (execute_with_memory_check egPorts (some egEst)
          (entryArgs (([BatchEntry.val 1, BatchEntry.val 2] :
            List BatchEntry).get ⟨i, hi⟩))).1 = Except.ok v :=
  execute_batch_length_and_order egPorts (some egEst)
    [BatchEntry.val 1, BatchEntry.val 2] [some 2, none] rfl

/-- C7: a memory-constraint refusal on the entry after a non-aborting block
`pre` yields the skipped marker in that entry's own slot, and the remaining
entries still run — their whole loop, trace included, follows verbatim. -/
theorem execute_batch_refusal_isolation (p : Ports) (est : Option (List ℤ → ℕ))
    (pre : List BatchEntry) (entry : BatchEntry) (rest : List BatchEntry)
    (s1 : List (Option ℤ)) (k1 : ℕ) (ev1 : List Event) (m : String)
    (hpre : execute_batch_loop p est pre = (Except.ok (s1, k1), ev1))
    (hentry : (execute_with_memory_check p est (entryArgs entry)).1 =
      Except.error (PyErr.memoryError m)) :
    (∀ s2 k2, (execute_batch_loop p est rest).1 = Except.ok (s2, k2) →
      (execute_batch_loop p est (pre ++ entry :: rest)).1 =
        Except.ok (s1 ++ none :: s2, k1 + (k2 + 1)) ∧
      (execute_batch_with_memory_check p (pre ++ entry :: rest) est).1 =
        Except.ok (s1 ++ none :: s2)) ∧
    (execute_batch_loop p est (pre ++ entry :: rest)).2 =
      ev1 ++ ((execute_with_memory_check p est (entryArgs entry)).2 ++
        [Event.logExecutionDecision p.func_name false m] ++
        (execute_batch_loop p est rest).2) := by
  have hcons : execute_batch_loop p est (entry :: rest) =
      (match (execute_batch_loop p est rest).1 with
       | Except.ok (slots, k) => Except.ok (none :: slots, k + 1)
       | Except.error e => Except.error e,
       (execute_with_memory_check p est (entryArgs entry)).2 ++
         [Event.logExecutionDecision p.func_name false m] ++
         (execute_batch_loop p est rest).2) := by
    rw [execute_batch_loop, batchStep, hentry]
  have happ := execute_batch_loop_append_ok p est (entry :: rest) pre s1 k1 ev1 hpre
  rw [hcons] at happ
  constructor
  · intro s2 k2 hrest
    rw [hrest] at happ
    constructor
    · rw [happ]
    · have hf := execute_batch_fst p est (pre ++ entry :: rest)
      rw [happ] at hf
      simpa using hf
  · rw [happ]

/-- Witness for C7: refusal of the middle entry of a three-entry batch, with
the first entry admitted and the last entry still attempted. -/
theorem execute_batch_refusal_isolation_witness :
    ((execute_batch_loop egPorts (some egEst)
        ([BatchEntry.val 1] ++ BatchEntry.val 2 :: [BatchEntry.val 1])).1 =
      Except.ok (([some 2] : List (Option ℤ)) ++ none :: [some 2], 0 + (0 + 1)) ∧
     (execute_batch_with_memory_check egPorts
        ([BatchEntry.val 1] ++ BatchEntry.val 2 :: [BatchEntry.val 1])
        (some egEst)).1 =
      Except.ok (([some 2] : List (Option ℤ)) ++ none :: [some 2])) ∧
    ((execute_batch_loop egPorts (some egEst)
        ([BatchEntry.val 1] ++ BatchEntry.val 2 :: [BatchEntry.val 1])).2 =
      (execute_batch_loop egPorts (some egEst) [BatchEntry.val 1]).2 ++
        ((execute_with_memory_check egPorts (some egEst)
            (entryArgs (BatchEntry.val 2))).2 ++
          [Event.logExecutionDecision egPorts.func_name false
            "Insufficient memory: estimated 0MB exceeds available memory"] ++
          (execute_batch_loop egPorts (some egEst) [BatchEntry.val 1]).2)) := by
  have h := execute_batch_refusal_isolation egPorts (some egEst)
    [BatchEntry.val 1] (BatchEntry.val 2) [BatchEntry.val 1] [some 2] 0
    (execute_batch_loop egPorts (some egEst) [BatchEntry.val 1]).2
    "Insufficient memory: estimated 0MB exceeds available memory" rfl rfl
  exact ⟨h.1 [some 2] 0 rfl, h.2⟩

/-- C8: with an estimator supplied, `estimate_memory_usage` runs exactly once
per single gated call, on that call's arguments; and a completed batch's trace
holds exactly one estimator interaction per entry, in input order, each on
that entry's own arguments — fresh every time, with no caching. -/
theorem estimator_called_once_per_entry (p : Ports) (est : List ℤ → ℕ)
    (args : List ℤ) (entries : List BatchEntry) (slots : List (Option ℤ))
    (h : (execute_batch_with_memory_check p entries (some est)).1 = Except.ok slots) :
    ((execute_with_memory_check p (some est) args).2).filter Event.isEstimateCall =
      [Event.estimateCall args (est args)] ∧
    ((execute_batch_with_memory_check p entries (some est)).2).filter
        Event.isEstimateCall =
      entries.map (fun entry =>
        Event.estimateCall (entryArgs entry) (est (entryArgs entry))) := by
  refine ⟨filter_estimate_single p est args, ?_⟩
  rcases hl : (execute_batch_loop p (some est) entries).1 with e | ⟨s, k⟩
  · have hf := execute_batch_fst p (some est) entries
    rw [h, hl] at hf
    simp at hf
  · have hfilter := execute_batch_loop_filter_estimate p est entries s k hl
    simp only [execute_batch_with_memory_check, hl]
    by_cases hk : k > 0 <;>
      simp [hk, List.filter_append, hfilter, Event.isEstimateCall]

/-- Witness for C8 on a two-entry batch (one admitted, one refused) and a
single call. -/
theorem estimator_called_once_per_entry_witness :
    ((execute_with_memory_check egPorts (some egEst) [1]).2).filter
        Event.isEstimateCall = [Event.estimateCall [1] (egEst [1])] ∧
    ((execute_batch_with_memory_check egPorts
        [BatchEntry.val 1, BatchEntry.val 2] (some egEst)).2).filter
        Event.isEstimateCall =
      ([BatchEntry.val 1, BatchEntry.val 2] : List BatchEntry).map
        (fun entry => Event.estimateCall (entryArgs entry) (egEst (entryArgs entry))) :=
  estimator_called_once_per_entry egPorts egEst [1]
    [BatchEntry.val 1, BatchEntry.val 2] [some 2, none] rfl

end MemHandler
